import Mathlib

/-!
Verification development for the torchrec test-support utilities:
`torchrec/metrics/test_utils/__init__.py` (reference metric aggregator and
distributed reconciliation harness) and
`torchrec/distributed/model_tracker/tests/utils.py` (synthetic model builders
and planner-constraint generation).

Python tensors are modelled as flat lists of rationals; Python `dict`s are
modelled as association lists with insert-or-overwrite semantics (an existing
key keeps its position, a new key is appended, matching CPython ordering).
-/

/-- A torch tensor, modelled as a flat list of rational entries. -/
abbrev Tensor := List ℚ

/-- Python `d[k]` / `d.get(k)`: first (and, for dicts, only) binding of `k`. -/
def dictGet? {α β : Type} [DecidableEq α] : List (α × β) → α → Option β
  | [], _ => none
  | (k, v) :: rest, key => if k = key then some v else dictGet? rest key

/-- Python `d[k] = v`: overwrite in place if the key exists, append otherwise. -/
def dictInsert {α β : Type} [DecidableEq α] : List (α × β) → α → β → List (α × β)
  | [], key, val => [(key, val)]
  | (k, v) :: rest, key, val =>
    if k = key then (key, val) :: rest else (k, v) :: dictInsert rest key val

/-- The keys of a modelled dict, in order. -/
def dictKeys {α β : Type} (d : List (α × β)) : List α := d.map Prod.fst

/-- `torch.zeros_like(v)` for a 1-D tensor. -/
def zerosLike (v : Tensor) : Tensor := List.replicate v.length 0

/-- `torch.ones(n)`. -/
def onesTensor (n : ℕ) : Tensor := List.replicate n 1

/-- Element-wise tensor addition (`+=` on same-shape tensors). -/
def tensorAdd (a b : Tensor) : Tensor := List.zipWith (· + ·) a b

/-- A named-state mapping (`Dict[str, torch.Tensor]`). -/
abbrev StateDict := List (String × Tensor)

/-- `TestMetric._aggregate(states, new_states)`: for each `k, v` in
`new_states`, set `states[k] = torch.zeros_like(v)` when `k` is absent, then
`states[k] += v`.  Returns the updated `states`. -/
def aggregate (states new_states : StateDict) : StateDict :=
  new_states.foldl
    (fun st kv =>
      dictInsert st kv.1 (tensorAdd ((dictGet? st kv.1).getD (zerosLike kv.2)) kv.2))
    states

/-- `RecTaskInfo` as used by the harness (external dataclass; the fields read
here are exactly the ones the source reads). -/
structure RecTaskInfo where
  name : String
  label_name : String
  prediction_name : String
  weight_name : String
  tensor_name : Option String
deriving DecidableEq

/-- `gen_test_tasks(task_names)`. -/
def gen_test_tasks (task_names : List String) : List RecTaskInfo :=
  task_names.map (fun task_name =>
    { name := task_name
      label_name := task_name ++ "-label"
      prediction_name := task_name ++ "-prediction"
      weight_name := task_name ++ "-weight"
      tensor_name := some (task_name ++ "-tensor") })

/-- Python `task_info.tensor_name or "tensor"` (`None` and `""` are falsy). -/
def orTensorName : Option String → String
  | some s => if s = "" then "tensor" else s
  | none => "tensor"

/-- The reference aggregator (`TestMetric`): configuration flags together with
the two abstract methods `_get_states` and `_compute` a subclass supplies. -/
structure TestMetricModel where
  world_size : ℕ
  rec_tasks : List RecTaskInfo
  compute_lifetime_metric : Bool := true
  compute_window_metric : Bool := true
  local_compute_lifetime_metric : Bool := true
  local_compute_window_metric : Bool := true
  get_states : Tensor → Tensor → Tensor → Tensor → StateDict
  compute_states : StateDict → Tensor

/-- `dist.all_gather` of one step's tensor for key `k` followed by
`torch.cat`: the concatenation, over all ranks, of that rank's tensor.
`allOuts r i k` is the tensor rank `r` holds for key `k` at step `i`. -/
def gatherCat (allOuts : ℕ → ℕ → String → Tensor) (world_size i : ℕ) (k : String) : Tensor :=
  ((List.range world_size).map (fun r => allOuts r i k)).flatten

/-- The states `_get_states` produces at step `i` for task `t` from the
gathered all-ranks view (`aggregated_model_out`). -/
def globalStatesAt (m : TestMetricModel) (allOuts : ℕ → ℕ → String → Tensor)
    (i : ℕ) (t : RecTaskInfo) : StateDict :=
  m.get_states
    (gatherCat allOuts m.world_size i t.label_name)
    (gatherCat allOuts m.world_size i t.prediction_name)
    (gatherCat allOuts m.world_size i t.weight_name)
    (gatherCat allOuts m.world_size i (orTensorName t.tensor_name))

/-- The states `_get_states` produces at step `i` for task `t` from the
issuing rank's own (ungathered) `model_outs[i]`. -/
def localStatesAt (m : TestMetricModel) (allOuts : ℕ → ℕ → String → Tensor)
    (myRank i : ℕ) (t : RecTaskInfo) : StateDict :=
  m.get_states
    (allOuts myRank i t.label_name)
    (allOuts myRank i t.prediction_name)
    (allOuts myRank i t.weight_name)
    (allOuts myRank i (orTensorName t.tensor_name))

/-- The window-membership test of `TestMetric.compute`:
`nsteps - batch_window_size <= i`, computed over Python's signed integers. -/
def windowCond (nsteps batch_window_size i : ℕ) : Bool :=
  decide ((nsteps : ℤ) - (batch_window_size : ℤ) ≤ (i : ℤ))

/-- The four accumulator dictionaries (or four metric dictionaries) of
`TestMetric.compute`, in source order. -/
structure Four (α : Type) where
  lifetime : α
  window : α
  local_lifetime : α
  local_window : α

/-- `TestMetric._aggregate(d[name], new)` where `name` is an initialized key
of the outer dict `d` (every task name is initialized before the loop). -/
def aggKey (d : List (String × StateDict)) (name : String) (new : StateDict) :
    List (String × StateDict) :=
  dictInsert d name (aggregate ((dictGet? d name).getD []) new)

/-- One iteration of the `for task_info in self._rec_tasks` body in
`TestMetric.compute`: conditionally fold the global states into the lifetime
and window accumulators and the local states into the local ones. -/
def taskUpdate (m : TestMetricModel) (allOuts : ℕ → ℕ → String → Tensor)
    (myRank nsteps batch_window_size i : ℕ)
    (s : Four (List (String × StateDict))) (t : RecTaskInfo) :
    Four (List (String × StateDict)) :=
  let states := globalStatesAt m allOuts i t
  let local_states := localStatesAt m allOuts myRank i t
  { lifetime :=
      if m.compute_lifetime_metric then aggKey s.lifetime t.name states else s.lifetime
    window :=
      if m.compute_window_metric && windowCond nsteps batch_window_size i then
        aggKey s.window t.name states
      else s.window
    local_lifetime :=
      if m.local_compute_lifetime_metric then
        aggKey s.local_lifetime t.name local_states
      else s.local_lifetime
    local_window :=
      if m.local_compute_window_metric && windowCond nsteps batch_window_size i then
        aggKey s.local_window t.name local_states
      else s.local_window }

/-- `{task_info.name: {} for task_info in self._rec_tasks}`. -/
def initStates (tasks : List RecTaskInfo) : List (String × StateDict) :=
  tasks.foldl (fun d t => dictInsert d t.name []) []

/-- `torch.tensor(0.0)`. -/
def zeroScalar : Tensor := [0]

/-- A metric mapping (`Dict[str, torch.Tensor]`, task name to metric value). -/
abbrev MetricsDict := List (String × Tensor)

/-- The return type of `TestMetric.compute`. -/
abbrev TestRecMetricOutput := MetricsDict × MetricsDict × MetricsDict × MetricsDict

/-- The four accumulator dictionaries at the end of the
`for i in range(nsteps)` loop of `TestMetric.compute`.  `allOuts r i k` is
the batch tensor rank `r` holds for key `k` at step `i` (every task field is
present in every step's batch, as the harness guarantees); `myRank` is the
issuing rank, whose `model_outs` the local accumulations read.  The
`timestamps` argument of `compute` is accepted but never read, exactly as in
the source. -/
def finalStates (m : TestMetricModel) (allOuts : ℕ → ℕ → String → Tensor)
    (myRank nsteps batch_window_size : ℕ) : Four (List (String × StateDict)) :=
  (List.range nsteps).foldl
    (fun s i => m.rec_tasks.foldl (taskUpdate m allOuts myRank nsteps batch_window_size i) s)
    ⟨initStates m.rec_tasks, initStates m.rec_tasks,
      initStates m.rec_tasks, initStates m.rec_tasks⟩

/-- The four metric dictionaries `TestMetric.compute` fills after the step
loop, from the accumulators of `finalStates`: per task, the subclass
`_compute` of the accumulated states when the matching flag is set, and
`torch.tensor(0.0)` otherwise. -/
def metricsOf (m : TestMetricModel) (allOuts : ℕ → ℕ → String → Tensor)
    (myRank nsteps batch_window_size : ℕ) : Four MetricsDict :=
  m.rec_tasks.foldl
    (fun (md : Four MetricsDict) t =>
      { lifetime := dictInsert md.lifetime t.name
          (if m.compute_lifetime_metric then
            m.compute_states
              ((dictGet? (finalStates m allOuts myRank nsteps batch_window_size).lifetime
                t.name).getD [])
          else zeroScalar)
        window := dictInsert md.window t.name
          (if m.compute_window_metric then
            m.compute_states
              ((dictGet? (finalStates m allOuts myRank nsteps batch_window_size).window
                t.name).getD [])
          else zeroScalar)
        local_lifetime := dictInsert md.local_lifetime t.name
          (if m.local_compute_lifetime_metric then
            m.compute_states
              ((dictGet? (finalStates m allOuts myRank nsteps batch_window_size).local_lifetime
                t.name).getD [])
          else zeroScalar)
        local_window := dictInsert md.local_window t.name
          (if m.local_compute_window_metric then
            m.compute_states
              ((dictGet? (finalStates m allOuts myRank nsteps batch_window_size).local_window
                t.name).getD [])
          else zeroScalar) })
    ⟨[], [], [], []⟩

/-- `TestMetric.compute(model_outs, nsteps, batch_window_size, timestamps)`
returns the four metric dictionaries as a tuple, in source order. -/
def TestMetricModel.compute (m : TestMetricModel) (allOuts : ℕ → ℕ → String → Tensor)
    (myRank nsteps batch_window_size : ℕ) (timestamps : Option (List ℚ)) :
    TestRecMetricOutput :=
  ((metricsOf m allOuts myRank nsteps batch_window_size).lifetime,
   (metricsOf m allOuts myRank nsteps batch_window_size).window,
   (metricsOf m allOuts myRank nsteps batch_window_size).local_lifetime,
   (metricsOf m allOuts myRank nsteps batch_window_size).local_window)

/-- The lifetime reference accumulation for one task: pointwise sum of the
all-ranks (gathered and concatenated) states over every step. -/
def lifetimeRef (m : TestMetricModel) (allOuts : ℕ → ℕ → String → Tensor)
    (nsteps : ℕ) (t : RecTaskInfo) : StateDict :=
  (List.range nsteps).foldl (fun st i => aggregate st (globalStatesAt m allOuts i t)) []

/-- The windowed reference accumulation for one task: pointwise sum of the
all-ranks states over the steps passing the window-membership test. -/
def windowRef (m : TestMetricModel) (allOuts : ℕ → ℕ → String → Tensor)
    (nsteps batch_window_size : ℕ) (t : RecTaskInfo) : StateDict :=
  ((List.range nsteps).filter (fun i => windowCond nsteps batch_window_size i)).foldl
    (fun st i => aggregate st (globalStatesAt m allOuts i t)) []

/-- The local lifetime reference accumulation: pointwise sum of the issuing
rank's own states over every step. -/
def localLifetimeRef (m : TestMetricModel) (allOuts : ℕ → ℕ → String → Tensor)
    (myRank nsteps : ℕ) (t : RecTaskInfo) : StateDict :=
  (List.range nsteps).foldl (fun st i => aggregate st (localStatesAt m allOuts myRank i t)) []

/-- The local windowed reference accumulation. -/
def localWindowRef (m : TestMetricModel) (allOuts : ℕ → ℕ → String → Tensor)
    (myRank nsteps batch_window_size : ℕ) (t : RecTaskInfo) : StateDict :=
  ((List.range nsteps).filter (fun i => windowCond nsteps batch_window_size i)).foldl
    (fun st i => aggregate st (localStatesAt m allOuts myRank i t)) []

/-- A `TestMetric` subclass as the harness sees it: the two abstract methods.
`test_clazz(world_size, tasks)` instantiates it with all four compute flags
left at their default `True`. -/
structure TestMetricClass where
  get_states : Tensor → Tensor → Tensor → Tensor → StateDict
  compute_states : StateDict → Tensor

/-- `test_clazz(world_size, tasks)`: construct the reference aggregator with
default flags. -/
def instantiateTestMetric (c : TestMetricClass) (world_size : ℕ)
    (tasks : List RecTaskInfo) : TestMetricModel :=
  { world_size := world_size
    rec_tasks := tasks
    get_states := c.get_states
    compute_states := c.compute_states }

/-- `get_test_rec_metric_value(model_outs, tasks, timestamps)` from
`rec_metric_value_test_helper`: empty results when `test_clazz is None`,
otherwise the instantiated reference aggregator's `compute`. -/
def get_test_rec_metric_value (test_clazz : Option TestMetricClass)
    (world_size : ℕ) (tasks : List RecTaskInfo)
    (allOuts : ℕ → ℕ → String → Tensor) (myRank nsteps batch_window_size : ℕ)
    (timestamps : Option (List ℚ)) : TestRecMetricOutput :=
  match test_clazz with
  | none => ([], [], [], [])
  | some c =>
    (instantiateTestMetric c world_size tasks).compute
      allOuts myRank nsteps batch_window_size timestamps

/-- The torch global random generator, abstracted: a deterministic state
machine.  `manual_seed` replaces the global state by a function of the seed
alone; each drawing primitive returns a tensor and the successor state. -/
structure TorchGen (σ : Type) where
  manual_seed : ℤ → σ
  randint : ℕ → ℕ → ℕ → σ → Tensor × σ
  rand : ℕ → σ → Tensor × σ
  rand2 : ℕ → ℕ → σ → Tensor × σ

/-- The keyword arguments of `gen_test_batch`, with the source defaults. -/
structure GenTestBatchArgs where
  batch_size : ℕ
  label_name : String := "label"
  prediction_name : String := "prediction"
  weight_name : String := "weight"
  tensor_name : String := "tensor"
  mask_tensor_name : Option String := none
  label_value : Option Tensor := none
  prediction_value : Option Tensor := none
  weight_value : Option Tensor := none
  mask : Option Tensor := none
  n_classes : Option ℕ := none
  seed : Option ℤ := none

/-- Python `n_classes or 2` (`None` and `0` are falsy). -/
def pyOrNat (o : Option ℕ) (d : ℕ) : ℕ :=
  match o with
  | some n => if n = 0 then d else n
  | none => d

/-- `gen_test_batch(...)`, threading the torch global generator state `st`
explicitly.  Returns the batch dict and the generator state afterwards. -/
def gen_test_batch {σ : Type} (g : TorchGen σ) (a : GenTestBatchArgs) (st : σ) :
    List (String × Tensor) × σ :=
  let st := match a.seed with
    | some s => g.manual_seed s
    | none => st
  let lp := match a.label_value with
    | some v => (v, st)
    | none => g.randint 0 (pyOrNat a.n_classes 2) a.batch_size st
  let pp := match a.prediction_value with
    | some v => (v, lp.2)
    | none =>
      match a.n_classes with
      | none => g.rand a.batch_size lp.2
      | some n => g.rand2 a.batch_size n lp.2
  let wp := match a.weight_value with
    | some v => (v, pp.2)
    | none => g.rand a.batch_size pp.2
  let tp := g.rand a.batch_size wp.2
  let test_batch :=
    dictInsert (dictInsert (dictInsert (dictInsert [] a.label_name lp.1)
      a.prediction_name pp.1) a.weight_name wp.1) a.tensor_name tp.1
  let test_batch := match a.mask_tensor_name with
    | some mname => dictInsert test_batch mname (a.mask.getD (onesTensor a.batch_size))
    | none => test_batch
  (test_batch, tp.2)

/-- The keyword arguments the harness passes to the target metric
constructor `target_clazz(...)` (external `RecMetric`); fields not passed by
a call site keep the `RecMetric` defaults. -/
structure TargetMetricCtorArgs where
  world_size : ℕ
  my_rank : ℕ
  batch_size : ℕ
  tasks : List RecTaskInfo
  window_size : ℕ
  fused_update_limit : ℕ := 0
  compute_on_all_ranks : Bool := false
  should_validate_update : Bool := false

/-- The target-metric construction performed by `get_target_rec_metric_value`
inside `rec_metric_value_test_helper`: note
`window_size = world_size * batch_size * batch_window_size`. -/
def get_target_rec_metric_ctor_args (world_size my_rank batch_size batch_window_size : ℕ)
    (tasks : List RecTaskInfo) (fused_update_limit : ℕ)
    (compute_on_all_ranks should_validate_update : Bool) : TargetMetricCtorArgs :=
  { world_size := world_size
    my_rank := my_rank
    batch_size := batch_size
    tasks := tasks
    window_size := world_size * batch_size * batch_window_size
    fused_update_limit := fused_update_limit
    compute_on_all_ranks := compute_on_all_ranks
    should_validate_update := should_validate_update }

/-- The target-metric construction performed by `sync_test_helper`: note
`window_size = batch_window_size * world_size` (no batch-size factor). -/
def sync_test_helper_ctor_args (world_size rank batch_size batch_window_size : ℕ)
    (tasks : List RecTaskInfo) (compute_on_all_ranks : Bool) : TargetMetricCtorArgs :=
  { world_size := world_size
    my_rank := rank
    batch_size := batch_size
    tasks := tasks
    window_size := batch_window_size * world_size
    compute_on_all_ranks := compute_on_all_ranks }

/-- The externally visible actions `sync_test_helper` performs on the target
metric object, in program order.  `assertWindowClose i task key` records an
`assert torch.allclose(test_metrics[i][task], res[key])`. -/
inductive SyncEvent where
  | update (rank : ℕ)
  | computeAll
  | assertWindowClose (testTupleIndex : ℕ) (task : String) (resKey : String)
  | resetTarget
deriving DecidableEq

/-- The result key the `sync_test_helper` assertion reads:
`"{metric_name}-{task}|window_{metric_name}"`, except that serving
calibration uses the `window_calibration` suffix. -/
def resKeyFor (metric_name task : String) : String :=
  if metric_name = "serving_calibration" then
    metric_name ++ "-" ++ task ++ "|window_calibration"
  else
    metric_name ++ "-" ++ task ++ "|window_" ++ metric_name

/-- The trace of target-metric actions of `sync_test_helper` on rank `rank`:
an uneven number of updates per rank, a compute, an assertion on rank 0
against the reference window value, a reset, then the same with the
imbalance reversed. -/
def sync_test_events (metric_name : String) (task_names : List String) (rank : ℕ) :
    List SyncEvent :=
  (if rank = 0 then List.replicate 3 (SyncEvent.update rank)
   else if rank = 1 then List.replicate 1 (SyncEvent.update rank) else [])
  ++ [SyncEvent.computeAll]
  ++ (if rank = 0 then
        [SyncEvent.assertWindowClose 1 (task_names.headD "")
          (resKeyFor metric_name (task_names.headD ""))]
      else [])
  ++ [SyncEvent.resetTarget]
  ++ (if rank = 0 then List.replicate 1 (SyncEvent.update rank)
      else if rank = 1 then List.replicate 3 (SyncEvent.update rank) else [])
  ++ [SyncEvent.computeAll]
  ++ (if rank = 0 then
        [SyncEvent.assertWindowClose 1 (task_names.headD "")
          (resKeyFor metric_name (task_names.headD ""))]
      else [])

/-- Is this event an `update` on the target metric? -/
def isUpdateEvent : SyncEvent → Bool
  | SyncEvent.update _ => true
  | _ => false

/-- Is this event the `reset` of the target metric? -/
def isResetEvent : SyncEvent → Bool
  | SyncEvent.resetTarget => true
  | _ => false

/-- An embedding-table configuration record; models both `EmbeddingConfig`
and `EmbeddingBagConfig` (external dataclasses), of which the source reads
`name`, `embedding_dim` and `feature_names`. -/
structure EmbeddingTableConfig where
  name : String
  embedding_dim : ℕ
  feature_names : List String
deriving DecidableEq

/-- `ShardingType` (external enum); the source only reads `.value`. -/
structure ShardingType where
  value : String
deriving DecidableEq

/-- `EmbeddingTableProps`. -/
structure EmbeddingTableProps where
  embedding_table_config : EmbeddingTableConfig
  sharding : ShardingType
  is_weighted : Bool := false
deriving DecidableEq

/-- `ParameterConstraints` (external dataclass), restricted to the fields the
generator fills. -/
structure ParameterConstraints where
  sharding_types : List String
  compute_kernels : List String
  feature_names : List String
  pooling_factors : List ℚ
deriving DecidableEq

/-- `EmbeddingComputeKernel.FUSED.value` (external enum constant). -/
def EmbeddingComputeKernel_FUSED : String := "fused"

/-- `generate_planner_constraints(tables)`. -/
def generate_planner_constraints (tables : List EmbeddingTableProps) :
    List (String × ParameterConstraints) :=
  tables.foldl
    (fun constraints table =>
      dictInsert constraints table.embedding_table_config.name
        { sharding_types := [table.sharding.value]
          compute_kernels := [EmbeddingComputeKernel_FUSED]
          feature_names := table.embedding_table_config.feature_names
          pooling_factors := [1] })
    []

/-- An `nn.Linear(in_features, out_features)` layer, by its dimensions. -/
structure LinearLayer where
  in_features : ℕ
  out_features : ℕ
deriving DecidableEq

/-- `TestECModel`: the wrapped `EmbeddingCollection`'s tables and the linear
stack `nn.Sequential(*[nn.Linear(d, d) for _ in range(3)])`. -/
structure TestECModel where
  ec_tables : List EmbeddingTableConfig
  seq : List LinearLayer
deriving DecidableEq

/-- `TestECModel.__init__`: reads `tables[0].embedding_dim`; `none` models
the `IndexError` raised on an empty table list. -/
def testECModelInit (tables : List EmbeddingTableConfig) : Option TestECModel :=
  match tables.head? with
  | none => none
  | some t0 =>
    some { ec_tables := tables
           seq := (List.range 3).map (fun _ =>
             { in_features := t0.embedding_dim, out_features := t0.embedding_dim }) }

/-- `TestEBCModel`: the wrapped `EmbeddingBagCollection`'s tables and the
linear stack. -/
structure TestEBCModel where
  ebc_tables : List EmbeddingTableConfig
  seq : List LinearLayer
deriving DecidableEq

/-- `TestEBCModel.__init__`: reads `tables[0].embedding_dim`; `none` models
the `IndexError` raised on an empty table list. -/
def testEBCModelInit (tables : List EmbeddingTableConfig) : Option TestEBCModel :=
  match tables.head? with
  | none => none
  | some t0 =>
    some { ebc_tables := tables
           seq := (List.range 3).map (fun _ =>
             { in_features := t0.embedding_dim, out_features := t0.embedding_dim }) }

/-- `create_ec_model(tables)`. -/
def create_ec_model (tables : List EmbeddingTableProps) : Option TestECModel :=
  testECModelInit (tables.map (fun table => table.embedding_table_config))

/-- `create_ebc_model(tables)`. -/
def create_ebc_model (tables : List EmbeddingTableProps) : Option TestEBCModel :=
  testEBCModelInit (tables.map (fun table => table.embedding_table_config))

/-- A concrete stand-in torch generator over state `ℕ`, used to evaluate the
seeded-determinism statement on concrete inputs. -/
def simpleGen : TorchGen ℕ :=
  { manual_seed := fun s => s.natAbs
    randint := fun lo _ n st => (List.replicate n (lo : ℚ), st + 1)
    rand := fun n st => (List.replicate n ((st : ℚ) / 7), st + 1)
    rand2 := fun n c st => (List.replicate (n * c) ((st : ℚ) / 7), st + 1) }

/-- A concrete task, as produced by `gen_test_tasks ["t1"]`. -/
def exTask : RecTaskInfo :=
  { name := "t1"
    label_name := "t1-label"
    prediction_name := "t1-prediction"
    weight_name := "t1-weight"
    tensor_name := some "t1-tensor" }

/-- A concrete `TestMetric` subclass for evaluating the aggregator model. -/
def exMetricClass : TestMetricClass :=
  { get_states := fun labels predictions weights extra =>
      [("s", tensorAdd (tensorAdd labels predictions) (tensorAdd weights extra))]
    compute_states := fun st => (dictGet? st "s").getD [] }

/-- A concrete instantiated reference aggregator with two ranks. -/
def exM : TestMetricModel := instantiateTestMetric exMetricClass 2 (gen_test_tasks ["t1"])

/-- Concrete per-rank model outputs: rank `r` at step `i` holds `[r + i]`
for every key. -/
def exOuts : ℕ → ℕ → String → Tensor := fun r i _ => [(r : ℚ) + (i : ℚ)]

/-- Two table descriptors sharing a name (and agreeing otherwise). -/
def dupNameTables : List EmbeddingTableProps :=
  [{ embedding_table_config := { name := "t0", embedding_dim := 4, feature_names := ["f0"] }
     sharding := { value := "table_wise" } },
   { embedding_table_config := { name := "t0", embedding_dim := 8, feature_names := ["f1"] }
     sharding := { value := "table_wise" } }]

/-- Two table descriptors sharing a name but with different sharding types. -/
def dupNameTables2 : List EmbeddingTableProps :=
  [{ embedding_table_config := { name := "t0", embedding_dim := 4, feature_names := ["f0"] }
     sharding := { value := "column_wise" } },
   { embedding_table_config := { name := "t0", embedding_dim := 4, feature_names := ["f0"] }
     sharding := { value := "row_wise" } }]

/-- Two table descriptors with distinct names. -/
def exDistinctTables : List EmbeddingTableProps :=
  [{ embedding_table_config := { name := "t0", embedding_dim := 4, feature_names := ["f0"] }
     sharding := { value := "table_wise" } },
   { embedding_table_config := { name := "t1", embedding_dim := 8, feature_names := ["f1"] }
     sharding := { value := "row_wise" } }]

/-! Dictionary lemmas. -/

theorem dictGet_insert_self {α β : Type} [DecidableEq α] (d : List (α × β)) (k : α) (v : β) :
    dictGet? (dictInsert d k v) k = some v := by
  induction d with
  | nil => simp [dictInsert, dictGet?]
  | cons hd tl ih =>
    obtain ⟨k1, v1⟩ := hd
    by_cases h : k1 = k
    · simp [dictInsert, h, dictGet?]
    · simp [dictInsert, h, dictGet?, ih]

theorem dictGet_insert_ne {α β : Type} [DecidableEq α] (d : List (α × β)) (k k2 : α) (v : β)
    (h : k ≠ k2) : dictGet? (dictInsert d k v) k2 = dictGet? d k2 := by
  induction d with
  | nil => simp [dictInsert, dictGet?, h]
  | cons hd tl ih =>
    obtain ⟨k1, v1⟩ := hd
    by_cases h1 : k1 = k
    · subst h1
      simp [dictInsert, dictGet?, h]
    · simp only [dictInsert, if_neg h1, dictGet?]
      by_cases h2 : k1 = k2
      · simp [h2]
      · simp [h2, ih]

theorem dictGet_eq_none {α β : Type} [DecidableEq α] (d : List (α × β)) (k : α) :
    dictGet? d k = none ↔ k ∉ dictKeys d := by
  induction d with
  | nil => simp [dictGet?, dictKeys]
  | cons hd tl ih =>
    obtain ⟨k1, v1⟩ := hd
    by_cases h : k1 = k
    · simp [dictGet?, dictKeys, h]
    · have h2 : ¬ k = k1 := fun hh => h hh.symm
      simp [dictGet?, dictKeys, h, h2, ih]

theorem dictKeys_insert {α β : Type} [DecidableEq α] (d : List (α × β)) (k : α) (v : β) :
    dictKeys (dictInsert d k v) =
      if k ∈ dictKeys d then dictKeys d else dictKeys d ++ [k] := by
  induction d with
  | nil => simp [dictInsert, dictKeys]
  | cons hd tl ih =>
    obtain ⟨k1, v1⟩ := hd
    by_cases h1 : k1 = k
    · subst h1
      simp [dictInsert, dictKeys]
    · have h2 : ¬ k = k1 := fun hh => h1 hh.symm
      simp only [dictInsert, if_neg h1, dictKeys, List.map_cons, List.mem_cons, h2,
        false_or] at ih ⊢
      rw [ih]
      split <;> simp

theorem dictInsert_length {α β : Type} [DecidableEq α] (d : List (α × β)) (k : α) (v : β) :
    (dictInsert d k v).length = if k ∈ dictKeys d then d.length else d.length + 1 := by
  have h1 : (dictInsert d k v).length = (dictKeys (dictInsert d k v)).length := by
    simp [dictKeys]
  have h2 : (dictKeys d).length = d.length := by simp [dictKeys]
  rw [h1, dictKeys_insert]
  split <;> simp [h2]

/-! Generic lemmas about folds that insert at per-element keys. -/

theorem foldl_insert_lookup_notMem {γ α β : Type} [DecidableEq α] (key : γ → α)
    (g : γ → Option β → β) (l : List γ) (k : α) (hk : ∀ u ∈ l, key u ≠ k)
    (d : List (α × β)) :
    dictGet? (l.foldl (fun acc u => dictInsert acc (key u) (g u (dictGet? acc (key u)))) d) k
      = dictGet? d k := by
  induction l generalizing d with
  | nil => rfl
  | cons u rest ih =>
    simp only [List.foldl_cons]
    rw [ih (fun w hw => hk w (List.mem_cons_of_mem _ hw)) _]
    exact dictGet_insert_ne _ _ _ _ (hk u (List.mem_cons_self u rest))

theorem foldl_insert_lookup {γ α β : Type} [DecidableEq α] (key : γ → α)
    (g : γ → Option β → β) (l : List γ) (t : γ) (ht : t ∈ l)
    (hnd : (l.map key).Nodup) (d : List (α × β)) :
    dictGet? (l.foldl (fun acc u => dictInsert acc (key u) (g u (dictGet? acc (key u)))) d)
        (key t)
      = some (g t (dictGet? d (key t))) := by
  induction l generalizing d with
  | nil => cases ht
  | cons u rest ih =>
    simp only [List.foldl_cons]
    rcases List.mem_cons.mp ht with h | h
    · subst h
      have hrest : ∀ w ∈ rest, key w ≠ key t := fun w hw hh =>
        (List.nodup_cons.mp hnd).1 (List.mem_map.mpr ⟨w, hw, hh⟩)
      rw [foldl_insert_lookup_notMem key g rest (key t) hrest _]
      exact dictGet_insert_self _ _ _
    · have hne : key u ≠ key t := fun hh =>
        (List.nodup_cons.mp hnd).1 (hh ▸ List.mem_map.mpr ⟨t, h, rfl⟩)
      rw [ih h (List.nodup_cons.mp hnd).2 _]
      rw [dictGet_insert_ne _ _ _ _ hne]

theorem foldl_four {γ α : Type} (F : Four α → γ → Four α) (fl fw fc fd : α → γ → α)
    (hF : ∀ s t, F s t =
      ⟨fl s.lifetime t, fw s.window t, fc s.local_lifetime t, fd s.local_window t⟩)
    (l : List γ) (s : Four α) :
    l.foldl F s =
      ⟨l.foldl fl s.lifetime, l.foldl fw s.window,
        l.foldl fc s.local_lifetime, l.foldl fd s.local_window⟩ := by
  induction l generalizing s with
  | nil => rfl
  | cons x xs ih => simp only [List.foldl_cons, hF, ih]

theorem foldl_lookup_map {γ α β : Type} [DecidableEq α] (T : List (α × β) → γ → List (α × β))
    (h : β → γ → β) (k : α)
    (H : ∀ d v i, dictGet? d k = some v → dictGet? (T d i) k = some (h v i))
    (l : List γ) (d : List (α × β)) (v : β) (hd : dictGet? d k = some v) :
    dictGet? (l.foldl T d) k = some (l.foldl h v) := by
  induction l generalizing d v with
  | nil => exact hd
  | cons i rest ih => exact ih _ _ (H d v i hd)

theorem foldl_if_filter {α γ : Type} (p : γ → Bool) (f : α → γ → α) (l : List γ) (a : α) :
    l.foldl (fun x y => if p y then f x y else x) a = (l.filter p).foldl f a := by
  induction l generalizing a with
  | nil => rfl
  | cons x xs ih =>
    by_cases h : p x <;> simp [List.filter_cons, h, ih]

/-! Lemmas about `TestMetric._aggregate`. -/

theorem aggregate_lookup (new : StateDict) (hnd : (new.map Prod.fst).Nodup)
    (st : StateDict) (k : String) :
    dictGet? (aggregate st new) k =
      match dictGet? new k with
      | some v => some (tensorAdd ((dictGet? st k).getD (zerosLike v)) v)
      | none => dictGet? st k := by
  induction new generalizing st with
  | nil => rfl
  | cons kv rest ih =>
    obtain ⟨k1, v1⟩ := kv
    have h1 : k1 ∉ rest.map Prod.fst := (List.nodup_cons.mp hnd).1
    have h2 := (List.nodup_cons.mp hnd).2
    have hstep : aggregate st ((k1, v1) :: rest)
        = aggregate (dictInsert st k1 (tensorAdd ((dictGet? st k1).getD (zerosLike v1)) v1))
            rest := rfl
    rw [hstep, ih h2 _]
    by_cases hk : k1 = k
    · subst hk
      have hr : dictGet? rest k1 = none := (dictGet_eq_none rest k1).mpr h1
      simp [hr, dictGet?, dictGet_insert_self]
    · have hhead : dictGet? ((k1, v1) :: rest) k = dictGet? rest k := by
        simp [dictGet?, hk]
      rw [hhead]
      cases hcase : dictGet? rest k with
      | none => simp [dictGet_insert_ne _ _ _ _ hk]
      | some v => simp [dictGet_insert_ne _ _ _ _ hk]

theorem tensorAdd_zerosLike (v : Tensor) : tensorAdd (zerosLike v) v = v := by
  induction v with
  | nil => rfl
  | cons a l ih =>
    simp only [tensorAdd, zerosLike] at ih
    simp only [zerosLike, List.length_cons, List.replicate_succ, tensorAdd,
      List.zipWith_cons_cons, zero_add, List.cons.injEq]
    exact ⟨by trivial, ih⟩

theorem foldl_stepk_some (vs : List Tensor) (w : Tensor) :
    vs.foldl (fun acc v => some (tensorAdd (acc.getD (zerosLike v)) v)) (some w)
      = some (vs.foldl tensorAdd w) := by
  induction vs generalizing w with
  | nil => rfl
  | cons v rest ih =>
    simp only [List.foldl_cons, Option.getD_some]
    exact ih _

theorem foldl_aggregate_lookup (steps : List StateDict) (k : String)
    (hnds : ∀ d ∈ steps, (d.map Prod.fst).Nodup) (st : StateDict) :
    dictGet? (steps.foldl aggregate st) k
      = (steps.filterMap (fun d => dictGet? d k)).foldl
          (fun acc v => some (tensorAdd (acc.getD (zerosLike v)) v)) (dictGet? st k) := by
  induction steps generalizing st with
  | nil => rfl
  | cons d rest ih =>
    simp only [List.foldl_cons, List.filterMap_cons]
    have hd := hnds d (List.mem_cons_self d rest)
    have hrest : ∀ x ∈ rest, (x.map Prod.fst).Nodup := fun x hx =>
      hnds x (List.mem_cons_of_mem _ hx)
    rw [ih hrest (aggregate st d), aggregate_lookup d hd st k]
    cases hcase : dictGet? d k with
    | none => simp
    | some v => simp

/-- C4: `TestMetric._aggregate` is pointwise summation per named state: a key
occurring in `new_states` maps afterwards to its previous value (zero if
absent) plus the new value element-wise; a key absent from `new_states` is
unchanged; and folding `_aggregate` over a sequence of per-step state
mappings yields, per state name, the element-wise sum of that state over the
steps that supplied it. -/
theorem aggregate_pointwise_sum (states new_states : StateDict) (k : String)
    (hnd : (new_states.map Prod.fst).Nodup) :
    (∀ v, dictGet? new_states k = some v →
      dictGet? (aggregate states new_states) k
        = some (tensorAdd ((dictGet? states k).getD (zerosLike v)) v))
    ∧ (dictGet? new_states k = none →
      dictGet? (aggregate states new_states) k = dictGet? states k)
    ∧ (∀ steps : List StateDict, (∀ d ∈ steps, (d.map Prod.fst).Nodup) →
      dictGet? (steps.foldl aggregate []) k
        = match steps.filterMap (fun d => dictGet? d k) with
          | [] => none
          | v :: vs => some (vs.foldl tensorAdd v)) := by
  refine ⟨?_, ?_, ?_⟩
  · intro v hv
    rw [aggregate_lookup new_states hnd states k, hv]
  · intro hv
    rw [aggregate_lookup new_states hnd states k, hv]
  · intro steps hnds
    rw [foldl_aggregate_lookup steps k hnds []]
    cases hcase : steps.filterMap (fun d => dictGet? d k) with
    | nil => rfl
    | cons v vs =>
      have h0 : dictGet? ([] : StateDict) k = none := rfl
      rw [h0]
      simp only [List.foldl_cons, Option.getD_none, tensorAdd_zerosLike]
      exact foldl_stepk_some vs v

/-- Witness for C4 at a concrete input. -/
theorem aggregate_pointwise_sum_witness :
    (([("a", [(3 : ℚ), 4]), ("b", [5])] : StateDict).map Prod.fst).Nodup
    ∧ ((∀ v, dictGet? ([("a", [(3 : ℚ), 4]), ("b", [5])] : StateDict) "a" = some v →
        dictGet? (aggregate [("a", [(1 : ℚ), 1])] [("a", [(3 : ℚ), 4]), ("b", [5])]) "a"
          = some (tensorAdd ((dictGet? ([("a", [(1 : ℚ), 1])] : StateDict) "a").getD
              (zerosLike v)) v))
      ∧ (dictGet? ([("a", [(3 : ℚ), 4]), ("b", [5])] : StateDict) "a" = none →
        dictGet? (aggregate [("a", [(1 : ℚ), 1])] [("a", [(3 : ℚ), 4]), ("b", [5])]) "a"
          = dictGet? ([("a", [(1 : ℚ), 1])] : StateDict) "a")
      ∧ (∀ steps : List StateDict, (∀ d ∈ steps, (d.map Prod.fst).Nodup) →
        dictGet? (steps.foldl aggregate []) "a"
          = match steps.filterMap (fun d => dictGet? d "a") with
            | [] => none
            | v :: vs => some (vs.foldl tensorAdd v))) :=
  ⟨by decide,
    aggregate_pointwise_sum [("a", [(1 : ℚ), 1])] [("a", [(3 : ℚ), 4]), ("b", [5])] "a"
      (by decide)⟩

/-! Characterization of `TestMetric.compute`. -/

theorem tasksFold_decomp (m : TestMetricModel) (allOuts : ℕ → ℕ → String → Tensor)
    (myRank nsteps batch_window_size i : ℕ) (s : Four (List (String × StateDict))) :
    m.rec_tasks.foldl (taskUpdate m allOuts myRank nsteps batch_window_size i) s =
      ⟨m.rec_tasks.foldl (fun d t =>
          if m.compute_lifetime_metric then
            aggKey d t.name (globalStatesAt m allOuts i t) else d) s.lifetime,
        m.rec_tasks.foldl (fun d t =>
          if m.compute_window_metric && windowCond nsteps batch_window_size i then
            aggKey d t.name (globalStatesAt m allOuts i t) else d) s.window,
        m.rec_tasks.foldl (fun d t =>
          if m.local_compute_lifetime_metric then
            aggKey d t.name (localStatesAt m allOuts myRank i t) else d) s.local_lifetime,
        m.rec_tasks.foldl (fun d t =>
          if m.local_compute_window_metric && windowCond nsteps batch_window_size i then
            aggKey d t.name (localStatesAt m allOuts myRank i t) else d) s.local_window⟩ :=
  foldl_four (taskUpdate m allOuts myRank nsteps batch_window_size i)
    (fun d t => if m.compute_lifetime_metric then
      aggKey d t.name (globalStatesAt m allOuts i t) else d)
    (fun d t => if m.compute_window_metric && windowCond nsteps batch_window_size i then
      aggKey d t.name (globalStatesAt m allOuts i t) else d)
    (fun d t => if m.local_compute_lifetime_metric then
      aggKey d t.name (localStatesAt m allOuts myRank i t) else d)
    (fun d t => if m.local_compute_window_metric && windowCond nsteps batch_window_size i then
      aggKey d t.name (localStatesAt m allOuts myRank i t) else d)
    (fun _ _ => rfl) m.rec_tasks s

theorem finalStates_decomp (m : TestMetricModel) (allOuts : ℕ → ℕ → String → Tensor)
    (myRank nsteps batch_window_size : ℕ) :
    finalStates m allOuts myRank nsteps batch_window_size =
      ⟨(List.range nsteps).foldl (fun d i => m.rec_tasks.foldl (fun d t =>
          if m.compute_lifetime_metric then
            aggKey d t.name (globalStatesAt m allOuts i t) else d) d)
          (initStates m.rec_tasks),
        (List.range nsteps).foldl (fun d i => m.rec_tasks.foldl (fun d t =>
          if m.compute_window_metric && windowCond nsteps batch_window_size i then
            aggKey d t.name (globalStatesAt m allOuts i t) else d) d)
          (initStates m.rec_tasks),
        (List.range nsteps).foldl (fun d i => m.rec_tasks.foldl (fun d t =>
          if m.local_compute_lifetime_metric then
            aggKey d t.name (localStatesAt m allOuts myRank i t) else d) d)
          (initStates m.rec_tasks),
        (List.range nsteps).foldl (fun d i => m.rec_tasks.foldl (fun d t =>
          if m.local_compute_window_metric && windowCond nsteps batch_window_size i then
            aggKey d t.name (localStatesAt m allOuts myRank i t) else d) d)
          (initStates m.rec_tasks)⟩ := by
  unfold finalStates
  exact foldl_four _ _ _ _ _
    (fun s i => tasksFold_decomp m allOuts myRank nsteps batch_window_size i s) _ _

theorem initStates_lookup (tasks : List RecTaskInfo) (t : RecTaskInfo) (ht : t ∈ tasks)
    (hnd : (tasks.map RecTaskInfo.name).Nodup) :
    dictGet? (initStates tasks) t.name = some ([] : StateDict) := by
  have h := foldl_insert_lookup (fun u : RecTaskInfo => u.name)
    (fun _ _ => ([] : StateDict)) tasks t ht hnd []
  simpa [initStates] using h

theorem componentFold_lookup (tasks : List RecTaskInfo) (c : ℕ → Bool)
    (S : ℕ → RecTaskInfo → StateDict) (steps : List ℕ) (t : RecTaskInfo)
    (ht : t ∈ tasks) (hnd : (tasks.map RecTaskInfo.name).Nodup) :
    dictGet? (steps.foldl (fun d i => tasks.foldl (fun d u =>
        if c i then aggKey d u.name (S i u) else d) d) (initStates tasks)) t.name
      = some (steps.foldl (fun v i => if c i then aggregate v (S i t) else v) []) := by
  refine foldl_lookup_map _ (fun v i => if c i then aggregate v (S i t) else v) t.name
    ?_ steps _ [] (initStates_lookup tasks t ht hnd)
  intro d v i hdv
  cases hc : c i with
  | true =>
    simp only [hc, if_true]
    have h := foldl_insert_lookup (fun u : RecTaskInfo => u.name)
      (fun u x => aggregate (x.getD []) (S i u)) tasks t ht hnd d
    simp only [aggKey]
    rw [h, hdv]
    simp
  | false =>
    simp only [hc, Bool.false_eq_true, if_false]
    rw [List.foldl_fixed]
    exact hdv

theorem finalStates_lookup (m : TestMetricModel) (allOuts : ℕ → ℕ → String → Tensor)
    (myRank nsteps batch_window_size : ℕ) (t : RecTaskInfo)
    (ht : t ∈ m.rec_tasks) (hnd : (m.rec_tasks.map RecTaskInfo.name).Nodup) :
    dictGet? (finalStates m allOuts myRank nsteps batch_window_size).lifetime t.name
      = some ((List.range nsteps).foldl (fun v i =>
          if m.compute_lifetime_metric then
            aggregate v (globalStatesAt m allOuts i t) else v) [])
    ∧ dictGet? (finalStates m allOuts myRank nsteps batch_window_size).window t.name
      = some ((List.range nsteps).foldl (fun v i =>
          if m.compute_window_metric && windowCond nsteps batch_window_size i then
            aggregate v (globalStatesAt m allOuts i t) else v) [])
    ∧ dictGet? (finalStates m allOuts myRank nsteps batch_window_size).local_lifetime t.name
      = some ((List.range nsteps).foldl (fun v i =>
          if m.local_compute_lifetime_metric then
            aggregate v (localStatesAt m allOuts myRank i t) else v) [])
    ∧ dictGet? (finalStates m allOuts myRank nsteps batch_window_size).local_window t.name
      = some ((List.range nsteps).foldl (fun v i =>
          if m.local_compute_window_metric && windowCond nsteps batch_window_size i then
            aggregate v (localStatesAt m allOuts myRank i t) else v) []) := by
  rw [finalStates_decomp]
  exact ⟨componentFold_lookup m.rec_tasks _ _ _ t ht hnd,
    componentFold_lookup m.rec_tasks _ _ _ t ht hnd,
    componentFold_lookup m.rec_tasks _ _ _ t ht hnd,
    componentFold_lookup m.rec_tasks _ _ _ t ht hnd⟩

theorem metricsOf_decomp (m : TestMetricModel) (allOuts : ℕ → ℕ → String → Tensor)
    (myRank nsteps batch_window_size : ℕ) :
    metricsOf m allOuts myRank nsteps batch_window_size =
      ⟨m.rec_tasks.foldl (fun d t => dictInsert d t.name
          (if m.compute_lifetime_metric then
            m.compute_states
              ((dictGet? (finalStates m allOuts myRank nsteps batch_window_size).lifetime
                t.name).getD [])
          else zeroScalar)) [],
        m.rec_tasks.foldl (fun d t => dictInsert d t.name
          (if m.compute_window_metric then
            m.compute_states
              ((dictGet? (finalStates m allOuts myRank nsteps batch_window_size).window
                t.name).getD [])
          else zeroScalar)) [],
        m.rec_tasks.foldl (fun d t => dictInsert d t.name
          (if m.local_compute_lifetime_metric then
            m.compute_states
              ((dictGet? (finalStates m allOuts myRank nsteps batch_window_size).local_lifetime
                t.name).getD [])
          else zeroScalar)) [],
        m.rec_tasks.foldl (fun d t => dictInsert d t.name
          (if m.local_compute_window_metric then
            m.compute_states
              ((dictGet? (finalStates m allOuts myRank nsteps batch_window_size).local_window
                t.name).getD [])
          else zeroScalar)) []⟩ := by
  unfold metricsOf
  exact foldl_four _
    (fun (d : MetricsDict) (t : RecTaskInfo) => dictInsert d t.name
      (if m.compute_lifetime_metric then
        m.compute_states
          ((dictGet? (finalStates m allOuts myRank nsteps batch_window_size).lifetime
            t.name).getD [])
      else zeroScalar))
    (fun (d : MetricsDict) (t : RecTaskInfo) => dictInsert d t.name
      (if m.compute_window_metric then
        m.compute_states
          ((dictGet? (finalStates m allOuts myRank nsteps batch_window_size).window
            t.name).getD [])
      else zeroScalar))
    (fun (d : MetricsDict) (t : RecTaskInfo) => dictInsert d t.name
      (if m.local_compute_lifetime_metric then
        m.compute_states
          ((dictGet? (finalStates m allOuts myRank nsteps batch_window_size).local_lifetime
            t.name).getD [])
      else zeroScalar))
    (fun (d : MetricsDict) (t : RecTaskInfo) => dictInsert d t.name
      (if m.local_compute_window_metric then
        m.compute_states
          ((dictGet? (finalStates m allOuts myRank nsteps batch_window_size).local_window
            t.name).getD [])
      else zeroScalar))
    (fun _ _ => rfl) _ _

theorem compute_lookup_spec (m : TestMetricModel) (allOuts : ℕ → ℕ → String → Tensor)
    (myRank nsteps batch_window_size : ℕ) (ts : Option (List ℚ)) (t : RecTaskInfo)
    (ht : t ∈ m.rec_tasks) (hnd : (m.rec_tasks.map RecTaskInfo.name).Nodup) :
    dictGet? (m.compute allOuts myRank nsteps batch_window_size ts).1 t.name
      = some (if m.compute_lifetime_metric then
          m.compute_states (lifetimeRef m allOuts nsteps t) else zeroScalar)
    ∧ dictGet? (m.compute allOuts myRank nsteps batch_window_size ts).2.1 t.name
      = some (if m.compute_window_metric then
          m.compute_states (windowRef m allOuts nsteps batch_window_size t) else zeroScalar)
    ∧ dictGet? (m.compute allOuts myRank nsteps batch_window_size ts).2.2.1 t.name
      = some (if m.local_compute_lifetime_metric then
          m.compute_states (localLifetimeRef m allOuts myRank nsteps t) else zeroScalar)
    ∧ dictGet? (m.compute allOuts myRank nsteps batch_window_size ts).2.2.2 t.name
      = some (if m.local_compute_window_metric then
          m.compute_states (localWindowRef m allOuts myRank nsteps batch_window_size t)
        else zeroScalar) := by
  obtain ⟨h1, h2, h3, h4⟩ :=
    finalStates_lookup m allOuts myRank nsteps batch_window_size t ht hnd
  refine ⟨?_, ?_, ?_, ?_⟩
  · show dictGet? (metricsOf m allOuts myRank nsteps batch_window_size).lifetime t.name = _
    rw [metricsOf_decomp]
    rw [foldl_insert_lookup (fun u : RecTaskInfo => u.name)
      (fun u _ => if m.compute_lifetime_metric then
        m.compute_states
          ((dictGet? (finalStates m allOuts myRank nsteps batch_window_size).lifetime
            u.name).getD [])
      else zeroScalar) m.rec_tasks t ht hnd []]
    rw [h1]
    cases hf : m.compute_lifetime_metric with
    | true => simp [hf, lifetimeRef]
    | false => simp [hf]
  · show dictGet? (metricsOf m allOuts myRank nsteps batch_window_size).window t.name = _
    rw [metricsOf_decomp]
    rw [foldl_insert_lookup (fun u : RecTaskInfo => u.name)
      (fun u _ => if m.compute_window_metric then
        m.compute_states
          ((dictGet? (finalStates m allOuts myRank nsteps batch_window_size).window
            u.name).getD [])
      else zeroScalar) m.rec_tasks t ht hnd []]
    rw [h2]
    cases hf : m.compute_window_metric with
    | true =>
      simp only [hf, if_true, Option.getD_some, Bool.true_and]
      rw [foldl_if_filter]
      rfl
    | false => simp [hf]
  · show dictGet?
      (metricsOf m allOuts myRank nsteps batch_window_size).local_lifetime t.name = _
    rw [metricsOf_decomp]
    rw [foldl_insert_lookup (fun u : RecTaskInfo => u.name)
      (fun u _ => if m.local_compute_lifetime_metric then
        m.compute_states
          ((dictGet? (finalStates m allOuts myRank nsteps batch_window_size).local_lifetime
            u.name).getD [])
      else zeroScalar) m.rec_tasks t ht hnd []]
    rw [h3]
    cases hf : m.local_compute_lifetime_metric with
    | true => simp [hf, localLifetimeRef]
    | false => simp [hf]
  · show dictGet?
      (metricsOf m allOuts myRank nsteps batch_window_size).local_window t.name = _
    rw [metricsOf_decomp]
    rw [foldl_insert_lookup (fun u : RecTaskInfo => u.name)
      (fun u _ => if m.local_compute_window_metric then
        m.compute_states
          ((dictGet? (finalStates m allOuts myRank nsteps batch_window_size).local_window
            u.name).getD [])
      else zeroScalar) m.rec_tasks t ht hnd []]
    rw [h4]
    cases hf : m.local_compute_window_metric with
    | true =>
      simp only [hf, if_true, Option.getD_some, Bool.true_and]
      rw [foldl_if_filter]
      rfl
    | false => simp [hf]

/-! Key-set lemmas for folds of keyed inserts. -/

theorem foldl_insert_keys_nodup {γ α β : Type} [DecidableEq α] (key : γ → α)
    (val : γ → List (α × β) → β) (l : List γ) (d : List (α × β))
    (hd : (dictKeys d).Nodup) :
    (dictKeys (l.foldl (fun acc u => dictInsert acc (key u) (val u acc)) d)).Nodup := by
  induction l generalizing d with
  | nil => exact hd
  | cons u rest ih =>
    simp only [List.foldl_cons]
    apply ih
    rw [dictKeys_insert]
    split
    · exact hd
    · next hmem =>
      refine List.nodup_append.mpr ⟨hd, List.nodup_singleton _, ?_⟩
      intro x hx hx2
      rw [List.mem_singleton] at hx2
      subst hx2
      exact hmem hx

theorem foldl_insert_keys_mem {γ α β : Type} [DecidableEq α] (key : γ → α)
    (val : γ → List (α × β) → β) (l : List γ) (d : List (α × β)) (n : α) :
    n ∈ dictKeys (l.foldl (fun acc u => dictInsert acc (key u) (val u acc)) d)
      ↔ n ∈ dictKeys d ∨ n ∈ l.map key := by
  induction l generalizing d with
  | nil => simp
  | cons u rest ih =>
    simp only [List.foldl_cons, List.map_cons, List.mem_cons]
    rw [ih, dictKeys_insert]
    split
    · next hmem =>
      constructor
      · rintro (h | h)
        · exact Or.inl h
        · exact Or.inr (Or.inr h)
      · rintro (h | h | h)
        · exact Or.inl h
        · exact Or.inl (h ▸ hmem)
        · exact Or.inr h
    · next hmem =>
      simp only [List.mem_append, List.mem_singleton]
      tauto

theorem foldl_insert_length {γ α β : Type} [DecidableEq α] (key : γ → α)
    (val : γ → List (α × β) → β) (l : List γ) (d : List (α × β))
    (hnd : (l.map key).Nodup) (hdisj : ∀ u ∈ l, key u ∉ dictKeys d) :
    (l.foldl (fun acc u => dictInsert acc (key u) (val u acc)) d).length
      = d.length + l.length := by
  induction l generalizing d with
  | nil => simp
  | cons u rest ih =>
    simp only [List.foldl_cons, List.length_cons]
    have hu : key u ∉ dictKeys d := hdisj u (List.mem_cons_self u rest)
    have hlen : (dictInsert d (key u) (val u d)).length = d.length + 1 := by
      rw [dictInsert_length]
      simp [hu]
    have hnd2 := (List.nodup_cons.mp hnd).2
    have hdisj2 : ∀ w ∈ rest, key w ∉ dictKeys (dictInsert d (key u) (val u d)) := by
      intro w hw
      rw [dictKeys_insert]
      have hwd : key w ∉ dictKeys d := hdisj w (List.mem_cons_of_mem _ hw)
      have hwu : key w ≠ key u := fun hh =>
        (List.nodup_cons.mp hnd).1 (List.mem_map.mpr ⟨w, hw, hh⟩)
      split
      · exact hwd
      · simp only [List.mem_append, List.mem_singleton]
        rintro (h | h)
        · exact hwd h
        · exact hwu h
    rw [ih _ hnd2 hdisj2, hlen]
    omega

/-- C5: `TestMetric.compute` drives four parallel accumulations per task —
global lifetime over all steps and global windowed over the trailing steps,
both from the per-rank tensors gathered across all ranks and concatenated
(`lifetimeRef`, `windowRef` build on `globalStatesAt`/`gatherCat`), and local
lifetime / local windowed from the issuing rank's unmodified tensors
(`localLifetimeRef`, `localWindowRef` build on `localStatesAt`) — and returns
the four metric mappings in the order (lifetime, window, local lifetime,
local window), substituting the scalar tensor `0.0` for any accumulation
whose compute flag is disabled. -/
theorem compute_four_parallel_accumulations (m : TestMetricModel)
    (allOuts : ℕ → ℕ → String → Tensor) (myRank nsteps batch_window_size : ℕ)
    (ts : Option (List ℚ)) (t : RecTaskInfo) (ht : t ∈ m.rec_tasks)
    (hnd : (m.rec_tasks.map RecTaskInfo.name).Nodup) :
    dictGet? (m.compute allOuts myRank nsteps batch_window_size ts).1 t.name
      = some (if m.compute_lifetime_metric then
          m.compute_states (lifetimeRef m allOuts nsteps t) else zeroScalar)
    ∧ dictGet? (m.compute allOuts myRank nsteps batch_window_size ts).2.1 t.name
      = some (if m.compute_window_metric then
          m.compute_states (windowRef m allOuts nsteps batch_window_size t) else zeroScalar)
    ∧ dictGet? (m.compute allOuts myRank nsteps batch_window_size ts).2.2.1 t.name
      = some (if m.local_compute_lifetime_metric then
          m.compute_states (localLifetimeRef m allOuts myRank nsteps t) else zeroScalar)
    ∧ dictGet? (m.compute allOuts myRank nsteps batch_window_size ts).2.2.2 t.name
      = some (if m.local_compute_window_metric then
          m.compute_states (localWindowRef m allOuts myRank nsteps batch_window_size t)
        else zeroScalar) :=
  compute_lookup_spec m allOuts myRank nsteps batch_window_size ts t ht hnd

/-- Witness for C5 at a concrete two-rank, one-task, two-step instance. -/
theorem compute_four_parallel_accumulations_witness :
    exTask ∈ exM.rec_tasks
    ∧ (exM.rec_tasks.map RecTaskInfo.name).Nodup
    ∧ (dictGet? (exM.compute exOuts 0 2 1 none).1 exTask.name
        = some (if exM.compute_lifetime_metric then
            exM.compute_states (lifetimeRef exM exOuts 2 exTask) else zeroScalar)
      ∧ dictGet? (exM.compute exOuts 0 2 1 none).2.1 exTask.name
        = some (if exM.compute_window_metric then
            exM.compute_states (windowRef exM exOuts 2 1 exTask) else zeroScalar)
      ∧ dictGet? (exM.compute exOuts 0 2 1 none).2.2.1 exTask.name
        = some (if exM.local_compute_lifetime_metric then
            exM.compute_states (localLifetimeRef exM exOuts 0 2 exTask) else zeroScalar)
      ∧ dictGet? (exM.compute exOuts 0 2 1 none).2.2.2 exTask.name
        = some (if exM.local_compute_window_metric then
            exM.compute_states (localWindowRef exM exOuts 0 2 1 exTask) else zeroScalar)) :=
  ⟨by decide, by decide,
    compute_four_parallel_accumulations exM exOuts 0 2 1 none exTask
      (by decide) (by decide)⟩

/-- C9: the result of `TestMetric.compute` is independent of its
`timestamps` argument, and so is `get_test_rec_metric_value`, for any two
timestamp values (including `None`): the reference aggregator never reads
the timestamps it is given. -/
theorem compute_independent_of_timestamps (m : TestMetricModel)
    (allOuts : ℕ → ℕ → String → Tensor) (myRank nsteps batch_window_size : ℕ)
    (ts1 ts2 : Option (List ℚ)) (test_clazz : Option TestMetricClass)
    (world_size : ℕ) (tasks : List RecTaskInfo) :
    m.compute allOuts myRank nsteps batch_window_size ts1
      = m.compute allOuts myRank nsteps batch_window_size ts2
    ∧ get_test_rec_metric_value test_clazz world_size tasks allOuts myRank nsteps
        batch_window_size ts1
      = get_test_rec_metric_value test_clazz world_size tasks allOuts myRank nsteps
        batch_window_size ts2 :=
  ⟨rfl, by cases test_clazz <;> rfl⟩

/-- C1: a step index `i < nsteps` is included in the windowed accumulations
of `TestMetric.compute` (both the global `window_states` and the local
`local_window_states`) iff `nsteps - batch_window_size <= i`, and that
condition on `[0, nsteps)` selects exactly the steps of
`[max(0, nsteps - batch_window_size), nsteps)`: both windowed results are
the accumulation over precisely that step interval. -/
theorem compute_window_membership (m : TestMetricModel)
    (allOuts : ℕ → ℕ → String → Tensor) (myRank nsteps batch_window_size : ℕ)
    (ts : Option (List ℚ)) (t : RecTaskInfo) (ht : t ∈ m.rec_tasks)
    (hnd : (m.rec_tasks.map RecTaskInfo.name).Nodup)
    (hw : m.compute_window_metric = true)
    (hlw : m.local_compute_window_metric = true) :
    (∀ i : ℕ, i < nsteps →
      (windowCond nsteps batch_window_size i = true ↔
        max 0 ((nsteps : ℤ) - (batch_window_size : ℤ)) ≤ (i : ℤ)))
    ∧ (List.range nsteps).filter (fun i => windowCond nsteps batch_window_size i)
        = (List.range nsteps).filter (fun (i : ℕ) =>
            decide (max 0 ((nsteps : ℤ) - (batch_window_size : ℤ)) ≤ (i : ℤ)))
    ∧ dictGet? (m.compute allOuts myRank nsteps batch_window_size ts).2.1 t.name
        = some (m.compute_states
            (((List.range nsteps).filter (fun (i : ℕ) =>
                decide (max 0 ((nsteps : ℤ) - (batch_window_size : ℤ)) ≤ (i : ℤ)))).foldl
              (fun st i => aggregate st (globalStatesAt m allOuts i t)) []))
    ∧ dictGet? (m.compute allOuts myRank nsteps batch_window_size ts).2.2.2 t.name
        = some (m.compute_states
            (((List.range nsteps).filter (fun (i : ℕ) =>
                decide (max 0 ((nsteps : ℤ) - (batch_window_size : ℤ)) ≤ (i : ℤ)))).foldl
              (fun st i => aggregate st (localStatesAt m allOuts myRank i t)) [])) := by
  have hiff : ∀ i : ℕ, i < nsteps →
      (windowCond nsteps batch_window_size i = true ↔
        max 0 ((nsteps : ℤ) - (batch_window_size : ℤ)) ≤ (i : ℤ)) := by
    intro i hi
    simp only [windowCond, decide_eq_true_eq]
    omega
  have hfilter : (List.range nsteps).filter (fun i => windowCond nsteps batch_window_size i)
      = (List.range nsteps).filter (fun (i : ℕ) =>
          decide (max 0 ((nsteps : ℤ) - (batch_window_size : ℤ)) ≤ (i : ℤ))) := by
    apply List.filter_congr
    intro i hi
    have hi2 := List.mem_range.mp hi
    simp only [windowCond, decide_eq_decide]
    omega
  obtain ⟨_, h2, _, h4⟩ :=
    compute_lookup_spec m allOuts myRank nsteps batch_window_size ts t ht hnd
  refine ⟨hiff, hfilter, ?_, ?_⟩
  · rw [h2]
    simp only [hw, eq_self_iff_true, if_true, windowRef, hfilter]
  · rw [h4]
    simp only [hlw, eq_self_iff_true, if_true, localWindowRef, hfilter]

/-- Witness for C1 at a concrete two-rank, one-task, two-step instance. -/
theorem compute_window_membership_witness :
    exTask ∈ exM.rec_tasks
    ∧ (exM.rec_tasks.map RecTaskInfo.name).Nodup
    ∧ exM.compute_window_metric = true
    ∧ exM.local_compute_window_metric = true
    ∧ ((∀ i : ℕ, i < 2 → (windowCond 2 1 i = true ↔
          max 0 ((2 : ℤ) - (1 : ℤ)) ≤ (i : ℤ)))
      ∧ (List.range 2).filter (fun i => windowCond 2 1 i)
          = (List.range 2).filter (fun (i : ℕ) => decide (max 0 ((2 : ℤ) - (1 : ℤ)) ≤ (i : ℤ)))
      ∧ dictGet? (exM.compute exOuts 0 2 1 none).2.1 exTask.name
          = some (exM.compute_states
              (((List.range 2).filter (fun (i : ℕ) =>
                  decide (max 0 ((2 : ℤ) - (1 : ℤ)) ≤ (i : ℤ)))).foldl
                (fun st i => aggregate st (globalStatesAt exM exOuts i exTask)) []))
      ∧ dictGet? (exM.compute exOuts 0 2 1 none).2.2.2 exTask.name
          = some (exM.compute_states
              (((List.range 2).filter (fun (i : ℕ) =>
                  decide (max 0 ((2 : ℤ) - (1 : ℤ)) ≤ (i : ℤ)))).foldl
                (fun st i => aggregate st (localStatesAt exM exOuts 0 i exTask)) []))) :=
  ⟨by decide, by decide, rfl, rfl,
    compute_window_membership exM exOuts 0 2 1 none exTask
      (by decide) (by decide) rfl rfl⟩

/-- C6: `gen_test_batch` is deterministic under seeding: when a seed is
supplied, `torch.manual_seed` replaces the global generator state, so two
calls with the same arguments and the same seed produce identical label,
prediction, weight and tensor arrays regardless of the generator state each
call starts from. -/
theorem gen_test_batch_seed_deterministic {σ : Type} (g : TorchGen σ)
    (a : GenTestBatchArgs) (st1 st2 : σ) (s : ℤ) (hs : a.seed = some s) :
    (gen_test_batch g a st1).1 = (gen_test_batch g a st2).1 := by
  simp only [gen_test_batch, hs]

/-- Witness for C6: two calls from different generator states agree. -/
theorem gen_test_batch_seed_deterministic_witness :
    ({ batch_size := 2, seed := some 5 } : GenTestBatchArgs).seed = some 5
    ∧ (gen_test_batch simpleGen { batch_size := 2, seed := some 5 } 3).1
        = (gen_test_batch simpleGen { batch_size := 2, seed := some 5 } 11).1 :=
  ⟨rfl, gen_test_batch_seed_deterministic simpleGen
    { batch_size := 2, seed := some 5 } 3 11 5 rfl⟩

/-- C2 counterexample: `sync_test_helper` constructs the target metric with
`window_size = batch_window_size * world_size`, which differs from
`world_size * batch_size * batch_window_size` already at the source defaults
(world size 2, batch size 32, window 5 batches): 10 vs 320. -/
theorem sync_window_size_counterexample :
    ¬ ((sync_test_helper_ctor_args 2 0 32 5 [] false).window_size = 2 * 32 * 5) := by
  decide

/-- C2 amended: the value-test helper (`get_target_rec_metric_value` inside
`rec_metric_value_test_helper`) constructs the target metric with window
size `world_size * batch_size * batch_window_size` elements, while the
GPU-sync helper (`sync_test_helper`) passes `batch_window_size * world_size`
(no batch-size factor). -/
theorem harness_target_window_sizes (world_size my_rank batch_size batch_window_size : ℕ)
    (tasks : List RecTaskInfo) (fused_update_limit : ℕ)
    (compute_on_all_ranks should_validate_update : Bool) :
    (get_target_rec_metric_ctor_args world_size my_rank batch_size batch_window_size
        tasks fused_update_limit compute_on_all_ranks should_validate_update).window_size
      = world_size * batch_size * batch_window_size
    ∧ (sync_test_helper_ctor_args world_size my_rank batch_size batch_window_size
        tasks compute_on_all_ranks).window_size
      = batch_window_size * world_size :=
  ⟨rfl, rfl⟩

/-- C7: `sync_test_helper` sends three updates on rank 0 and one on rank 1,
computes, asserts on rank 0 that the target's window metric for the first
task matches the reference `TestMetric` window value (`test_metrics[1]`),
resets the target, then repeats with the imbalance reversed (one update on
rank 0, three on rank 1) and asserts again on rank 0. -/
theorem sync_test_helper_uneven_updates (metric_name : String)
    (task_names : List String) :
    sync_test_events metric_name task_names 0
      = [SyncEvent.update 0, SyncEvent.update 0, SyncEvent.update 0, SyncEvent.computeAll,
          SyncEvent.assertWindowClose 1 (task_names.headD "")
            (resKeyFor metric_name (task_names.headD "")),
          SyncEvent.resetTarget, SyncEvent.update 0, SyncEvent.computeAll,
          SyncEvent.assertWindowClose 1 (task_names.headD "")
            (resKeyFor metric_name (task_names.headD ""))]
    ∧ sync_test_events metric_name task_names 1
      = [SyncEvent.update 1, SyncEvent.computeAll, SyncEvent.resetTarget,
          SyncEvent.update 1, SyncEvent.update 1, SyncEvent.update 1, SyncEvent.computeAll]
    ∧ ((sync_test_events metric_name task_names 0).takeWhile
        (fun e => !(isResetEvent e))).countP isUpdateEvent = 3
    ∧ ((sync_test_events metric_name task_names 1).takeWhile
        (fun e => !(isResetEvent e))).countP isUpdateEvent = 1
    ∧ ((sync_test_events metric_name task_names 0).dropWhile
        (fun e => !(isResetEvent e))).countP isUpdateEvent = 1
    ∧ ((sync_test_events metric_name task_names 1).dropWhile
        (fun e => !(isResetEvent e))).countP isUpdateEvent = 3 :=
  ⟨rfl, rfl, rfl, rfl, rfl, rfl⟩

/-- C10: `TestECModel.__init__` and `TestEBCModel.__init__` (and hence
`create_ec_model` / `create_ebc_model`) read `tables[0].embedding_dim`, so
the empty table list fails with an index error (modelled as `none`), and for
every non-empty list the three-layer linear stack is square with width equal
to the first table's embedding dimension, regardless of the remaining
tables. -/
theorem model_builders_first_table_dim :
    testECModelInit [] = none ∧ testEBCModelInit [] = none
    ∧ create_ec_model [] = none ∧ create_ebc_model [] = none
    ∧ (∀ (t0 : EmbeddingTableConfig) (rest : List EmbeddingTableConfig),
        ∃ mec : TestECModel, testECModelInit (t0 :: rest) = some mec
          ∧ ∀ l ∈ mec.seq,
              l.in_features = t0.embedding_dim ∧ l.out_features = t0.embedding_dim)
    ∧ (∀ (t0 : EmbeddingTableConfig) (rest : List EmbeddingTableConfig),
        ∃ meb : TestEBCModel, testEBCModelInit (t0 :: rest) = some meb
          ∧ ∀ l ∈ meb.seq,
              l.in_features = t0.embedding_dim ∧ l.out_features = t0.embedding_dim) := by
  refine ⟨rfl, rfl, rfl, rfl, ?_, ?_⟩
  · intro t0 rest
    refine ⟨{ ec_tables := t0 :: rest
              seq := (List.range 3).map (fun _ =>
                { in_features := t0.embedding_dim, out_features := t0.embedding_dim }) },
      by rfl, ?_⟩
    intro l hl
    obtain ⟨i, _, hli⟩ := List.mem_map.mp hl
    subst hli
    exact ⟨rfl, rfl⟩
  · intro t0 rest
    refine ⟨{ ebc_tables := t0 :: rest
              seq := (List.range 3).map (fun _ =>
                { in_features := t0.embedding_dim, out_features := t0.embedding_dim }) },
      by rfl, ?_⟩
    intro l hl
    obtain ⟨i, _, hli⟩ := List.mem_map.mp hl
    subst hli
    exact ⟨rfl, rfl⟩

/-- Witness for C10: a concrete one-table instance of the non-empty case. -/
theorem model_builders_first_table_dim_witness :
    ∃ mec : TestECModel,
      testECModelInit [{ name := "t0", embedding_dim := 4, feature_names := ["f0"] }]
        = some mec
      ∧ ∀ l ∈ mec.seq, l.in_features = 4 ∧ l.out_features = 4 :=
  model_builders_first_table_dim.2.2.2.2.1
    { name := "t0", embedding_dim := 4, feature_names := ["f0"] } []

/-- C3 counterexample: with two table descriptors sharing a name, the
generated constraints mapping has one entry, not one per input table. -/
theorem generate_planner_constraints_size_counterexample :
    ¬ ((generate_planner_constraints dupNameTables).length = dupNameTables.length) := by
  decide

/-- C3 amended: the constraints mapping is keyed exactly by the table names
(its key set equals the set of table names, without duplicates), and when
the table names are distinct its size equals the number of tables; duplicate
names collapse to the last descriptor's entry, so the size claim needs
distinct names. -/
theorem generate_planner_constraints_keys (tables : List EmbeddingTableProps) :
    (dictKeys (generate_planner_constraints tables)).Nodup
    ∧ (∀ n, n ∈ dictKeys (generate_planner_constraints tables) ↔
        n ∈ tables.map (fun table => table.embedding_table_config.name))
    ∧ ((tables.map (fun table => table.embedding_table_config.name)).Nodup →
        (generate_planner_constraints tables).length = tables.length) := by
  refine ⟨?_, ?_, ?_⟩
  · exact foldl_insert_keys_nodup
      (fun table : EmbeddingTableProps => table.embedding_table_config.name)
      (fun table _ =>
        ({ sharding_types := [table.sharding.value]
           compute_kernels := [EmbeddingComputeKernel_FUSED]
           feature_names := table.embedding_table_config.feature_names
           pooling_factors := [1] } : ParameterConstraints))
      tables [] (by simp [dictKeys])
  · intro n
    have h := foldl_insert_keys_mem
      (fun table : EmbeddingTableProps => table.embedding_table_config.name)
      (fun table _ =>
        ({ sharding_types := [table.sharding.value]
           compute_kernels := [EmbeddingComputeKernel_FUSED]
           feature_names := table.embedding_table_config.feature_names
           pooling_factors := [1] } : ParameterConstraints))
      tables [] n
    simpa [dictKeys] using h
  · intro hnd
    have h := foldl_insert_length
      (fun table : EmbeddingTableProps => table.embedding_table_config.name)
      (fun table _ =>
        ({ sharding_types := [table.sharding.value]
           compute_kernels := [EmbeddingComputeKernel_FUSED]
           feature_names := table.embedding_table_config.feature_names
           pooling_factors := [1] } : ParameterConstraints))
      tables [] hnd (by simp [dictKeys])
    simpa using h

/-- Witness for C3 (amended) on two distinctly named tables. -/
theorem generate_planner_constraints_keys_witness :
    (exDistinctTables.map (fun table => table.embedding_table_config.name)).Nodup
    ∧ (generate_planner_constraints exDistinctTables).length = exDistinctTables.length :=
  ⟨by decide, (generate_planner_constraints_keys exDistinctTables).2.2 (by decide)⟩

/-- C8 counterexample: with two descriptors sharing a name but differing in
sharding type, the mapping does not send the first table's name to that
table's record (the later descriptor overwrote it). -/
theorem generate_planner_constraints_entry_counterexample :
    ¬ (∀ t ∈ dupNameTables2,
      dictGet? (generate_planner_constraints dupNameTables2) t.embedding_table_config.name
        = some { sharding_types := [t.sharding.value]
                 compute_kernels := [EmbeddingComputeKernel_FUSED]
                 feature_names := t.embedding_table_config.feature_names
                 pooling_factors := [1] }) := by
  decide

/-- C8 amended: for distinct table names, `generate_planner_constraints`
maps each table's name to the record with singleton sharding-type list, the
singleton FUSED compute-kernel list, the table's feature names and pooling
factor exactly `[1.0]`; as a pure function it is trivially deterministic
(equal results on equal inputs). -/
theorem generate_planner_constraints_entries (tables : List EmbeddingTableProps)
    (hnd : (tables.map (fun table => table.embedding_table_config.name)).Nodup) :
    (∀ t ∈ tables,
      dictGet? (generate_planner_constraints tables) t.embedding_table_config.name
        = some { sharding_types := [t.sharding.value]
                 compute_kernels := [EmbeddingComputeKernel_FUSED]
                 feature_names := t.embedding_table_config.feature_names
                 pooling_factors := [1] })
    ∧ generate_planner_constraints tables = generate_planner_constraints tables := by
  refine ⟨?_, rfl⟩
  intro t ht
  exact foldl_insert_lookup
    (fun table : EmbeddingTableProps => table.embedding_table_config.name)
    (fun table _ =>
      ({ sharding_types := [table.sharding.value]
         compute_kernels := [EmbeddingComputeKernel_FUSED]
         feature_names := table.embedding_table_config.feature_names
         pooling_factors := [1] } : ParameterConstraints))
    tables t ht hnd []

/-- Witness for C8 (amended) on two distinctly named tables. -/
theorem generate_planner_constraints_entries_witness :
    (exDistinctTables.map (fun table => table.embedding_table_config.name)).Nodup
    ∧ ((∀ t ∈ exDistinctTables,
        dictGet? (generate_planner_constraints exDistinctTables)
            t.embedding_table_config.name
          = some { sharding_types := [t.sharding.value]
                   compute_kernels := [EmbeddingComputeKernel_FUSED]
                   feature_names := t.embedding_table_config.feature_names
                   pooling_factors := [1] })
      ∧ generate_planner_constraints exDistinctTables
          = generate_planner_constraints exDistinctTables) :=
  ⟨by decide, generate_planner_constraints_entries exDistinctTables (by decide)⟩
